import Mathlib

/-!
Verification of the virtual-branch persistence layer of
`gitbutler-app/src/virtual_branches/branch.rs`.

The source file defines the `Branch` aggregate, the request DTOs
(`BranchUpdateRequest`, `BranchCreateRequest`) and the reconstruction of a
`Branch` from a key-addressed store (`TryFrom<&crate::reader::Reader>`).
We shallowly embed the store as a function from key to optional content,
translate the field-by-field loading logic of `try_from` directly, and
model from the spec the collaborator pieces that live outside the given
source file (the `Content` conversions of the reader, and the textual
parsers for identifiers, oids, remote reference names and ownership).
-/

namespace GitButler

/-! ## Character/list helpers (structural, kernel-reducible) -/

/-- Lowercase hexadecimal digit test. -/
def isHexChar (c : Char) : Bool :=
  c.isDigit || (decide (97 ≤ c.toNat) && decide (c.toNat ≤ 102))

/-- Split a character list on a separator character.  The result always has
at least one (possibly empty) segment. -/
def splitOnChar (sep : Char) (cs : List Char) : List (List Char) :=
  cs.foldr
    (fun c acc =>
      match acc with
      | l :: ls => if c = sep then [] :: l :: ls else (c :: l) :: ls
      | [] => [[c]])
    [[]]

/-- Parse a non-empty all-digit character list as a decimal number. -/
def parseDecimal (cs : List Char) : Option Nat :=
  if cs.isEmpty then none
  else if cs.all Char.isDigit then
    some (cs.foldl (fun n c => n * 10 + (c.toNat - 48)) 0)
  else none

/-! ## Identifier, oid, remote refname, ownership

These textual parsers live outside the given source file; they are
modelled from the spec (encodings of section 6, parse contracts of
sections 4.1 and 4.2). -/

/-- Typed branch identifier (`BranchId = Id<Branch>`). -/
structure BranchId where
  text : String
deriving DecidableEq

/-- Modelled from the spec: canonical identifier text is the usual
hyphenated UUID shape (8-4-4-4-12 lowercase hex groups). -/
def isUuidText (s : String) : Bool :=
  match splitOnChar '-' s.data with
  | [a, b, c, d, e] =>
      decide (a.length = 8) && decide (b.length = 4) && decide (c.length = 4) &&
      decide (d.length = 4) && decide (e.length = 12) &&
      (a ++ b ++ c ++ d ++ e).all isHexChar
  | _ => false

/-- Modelled from the spec: `parse(text)` fails when `text` is not a valid
identifier encoding. -/
def BranchId.parse (s : String) : Option BranchId :=
  if isUuidText s then some ⟨s⟩ else none

/-- Tree/commit identifier (`git::Oid`), kept as its canonical hex text. -/
structure Oid where
  hex : String
deriving DecidableEq

/-- Modelled from the spec: commit/tree-identifier encoding is 40
hexadecimal characters. -/
def Oid.parse (s : String) : Option Oid :=
  if decide (s.data.length = 40) && s.data.all isHexChar then some ⟨s⟩ else none

/-- Remote reference name (`git::RemoteRefname`). -/
structure RemoteRefname where
  remote : String
  branch : String
deriving DecidableEq

/-- Modelled from the spec: remote-reference encoding
`refs/remotes/<remote>/<branch>` with nonempty components. -/
def RemoteRefname.parse (s : String) : Option RemoteRefname :=
  match splitOnChar '/' s.data with
  | r1 :: r2 :: remote :: b :: rest =>
      if r1 = "refs".data ∧ r2 = "remotes".data ∧ remote ≠ [] ∧ b ≠ [] then
        some ⟨String.mk remote, String.mk (List.intercalate ['/'] (b :: rest))⟩
      else none
  | _ => false |> fun _ => none

/-- One file's ownership claim: a path plus the textual hunk list. -/
structure OwnedFile where
  path : String
  hunks : String
deriving DecidableEq

/-- The full ownership of a branch: a sequence of per-file claims. -/
structure Ownership where
  files : List OwnedFile
deriving DecidableEq

/-- Modelled from the spec: one nonempty ownership line decomposes as
`path:hunks`; anything else is malformed. -/
def parseFileLine (cs : List Char) : Option OwnedFile :=
  match splitOnChar ':' cs with
  | [p, h] => if p.isEmpty then none else some ⟨String.mk p, String.mk h⟩
  | _ => none

/-- Modelled from the spec: ownership text is newline-separated file
entries; empty text parses to the empty ownership; a malformed line makes
the whole parse fail. -/
def Ownership.parse (s : String) : Option Ownership :=
  (((splitOnChar '\n' s.data).filter (fun l => !l.isEmpty)).mapM parseFileLine).map
    Ownership.mk

/-! ## The reader interface -/

/-- Modelled from the spec: the store hands back tagged content,
UTF-8 text or raw bytes. -/
inductive Content
  | utf8 (s : String)
  | binary (bytes : List Nat)
deriving DecidableEq

/-- The reader error type (`crate::reader::Error`): a missing key
(`NotFound`), a content-shape conversion failure (the `TryFrom<Content>`
errors), or a wrapped I/O-style error (`Error::Io`), which `try_from`
builds with a formatted message. -/
inductive ReadError
  | notFound
  | conversion (msg : String)
  | ioErr (msg : String)
deriving DecidableEq

/-- A store state: each key either holds content or is absent. -/
abbrev Store := String → Option Content

/-- `reader.read(key)`: content when the key is present, `NotFound`
otherwise. -/
def readKey (r : Store) (k : String) : Except ReadError Content :=
  match r k with
  | some c => Except.ok c
  | none => Except.error ReadError.notFound

def utf8ErrMsg : String := "expected utf-8 content"
def decimalErrMsg : String := "expected decimal number"
def rangeErrMsg : String := "number out of range"

/-- Modelled from the spec: `TryFrom<Content> for String` succeeds exactly
on UTF-8 content. -/
def contentToString : Content → Except ReadError String
  | Content.utf8 s => Except.ok s
  | Content.binary _ => Except.error (ReadError.conversion utf8ErrMsg)

/-- Modelled from the spec: numeric conversions parse unsigned decimal
text and respect the machine-integer bound. -/
def contentToNat (bound : Nat) : Content → Except ReadError Nat
  | Content.utf8 s =>
      match parseDecimal s.data with
      | some n =>
          if n < bound then Except.ok n
          else Except.error (ReadError.conversion rangeErrMsg)
      | none => Except.error (ReadError.conversion decimalErrMsg)
  | Content.binary _ => Except.error (ReadError.conversion utf8ErrMsg)

/-- Modelled from the spec: the boolean encoding of `meta/applied`. -/
def contentToBool : Content → Except ReadError Bool
  | Content.utf8 s =>
      if s = "true" then Except.ok true
      else if s = "false" then Except.ok false
      else Except.error (ReadError.conversion "expected boolean content")
  | Content.binary _ => Except.error (ReadError.conversion utf8ErrMsg)

def usizeBound : Nat := 2 ^ 64
def u128Bound : Nat := 2 ^ 128

/-! ## The Branch aggregate and request DTOs (source lines 25-66) -/

structure Branch where
  id : BranchId
  name : String
  notes : String
  applied : Bool
  upstream : Option RemoteRefname
  upstream_head : Option Oid
  created_timestamp_ms : Nat
  updated_timestamp_ms : Nat
  tree : Oid
  head : Oid
  ownership : Ownership
  order : Nat
deriving DecidableEq

/-- A synthetic (non-real) reference name for a virtual branch. -/
structure VirtualRefname where
  value : String
deriving DecidableEq

/-- Modelled from the spec: `Branch::refname()` derives a synthetic
reference name from the branch's identifier (the `Into<VirtualRefname>`
implementation is outside the given source file). -/
def Branch.refname (b : Branch) : VirtualRefname :=
  ⟨"refs/gitbutler/" ++ b.id.text⟩

/-- `BranchUpdateRequest` (source lines 51-59): a sparse patch selecting a
target by `id`; only name, notes, ownership, order and upstream (a bare
branch short-name) are representable. -/
structure BranchUpdateRequest where
  id : BranchId
  name : Option String
  notes : Option String
  ownership : Option Ownership
  order : Option Nat
  upstream : Option String

/-- `BranchCreateRequest` (source lines 61-66). -/
structure BranchCreateRequest where
  name : Option String
  ownership : Option Ownership
  order : Option Nat

/-- Modelled from the spec: applying a `BranchUpdateRequest` patches only
the representable fields (a `None` means "leave unchanged"), qualifies the
bare upstream short-name into a remote reference, and refreshes
`updated_timestamp_ms`. -/
def applyUpdate (b : Branch) (u : BranchUpdateRequest) (now : Nat) : Branch :=
  { b with
    name := u.name.getD b.name
    notes := u.notes.getD b.notes
    ownership := u.ownership.getD b.ownership
    order := u.order.getD b.order
    upstream :=
      match u.upstream with
      | some s => some ⟨"origin", s⟩
      | none => b.upstream
    updated_timestamp_ms := now }

/-! ## Field-by-field loading (translation of `try_from`, source lines 68-175)

Each `field…` definition below is the exact per-key block of `try_from`;
`loadBranch` chains them in the source's evaluation order. -/

def idParseMsg : String := "id: malformed identifier"
def upstreamHeadParseMsg : String := "meta/upstream_head: malformed oid"
def upstreamParseMsg : String := "meta/upstream: malformed remote refname"
def ownershipParseMsg : String := "meta/ownership: malformed ownership"

/-- Lines 72-77: read `id`, convert to text, parse the identifier; a parse
failure is wrapped as an I/O error whose message names the key. -/
def fieldId (r : Store) : Except ReadError BranchId :=
  match readKey r "id" with
  | Except.error e => Except.error e
  | Except.ok c =>
      match contentToString c with
      | Except.error e => Except.error e
      | Except.ok s =>
          match BranchId.parse s with
          | some i => Except.ok i
          | none => Except.error (ReadError.ioErr idParseMsg)

/-- Line 78: read `meta/name`, convert to text. -/
def fieldName (r : Store) : Except ReadError String :=
  match readKey r "meta/name" with
  | Except.error e => Except.error e
  | Except.ok c => contentToString c

/-- Lines 80-84: `meta/notes` defaults to the empty string when absent but
a present value that fails conversion still fails. -/
def fieldNotes (r : Store) : Except ReadError String :=
  match readKey r "meta/notes" with
  | Except.ok c => contentToString c
  | Except.error ReadError.notFound => Except.ok ""
  | Except.error e => Except.error e

/-- Lines 86-90: `meta/applied` degrades to `false` on any read or
conversion failure (`match … { Ok(a) => a.try_into(), _ => Ok(false) }
.unwrap_or(false)`). -/
def fieldApplied (r : Store) : Bool :=
  match readKey r "meta/applied" with
  | Except.ok c =>
      match contentToBool c with
      | Except.ok v => v
      | Except.error _ => false
  | Except.error _ => false

/-- Lines 92-96: `meta/order` defaults to 0 when absent but a present
value that fails conversion still fails. -/
def fieldOrder (r : Store) : Except ReadError Nat :=
  match readKey r "meta/order" with
  | Except.ok c => contentToNat usizeBound c
  | Except.error ReadError.notFound => Except.ok 0
  | Except.error e => Except.error e

/-- Lines 98-112: `meta/upstream_head` — UTF-8 content is parsed as an
oid (failure wrapped with the key name); non-UTF-8 content or absence
yields `None`. -/
def fieldUpstreamHead (r : Store) : Except ReadError (Option Oid) :=
  match readKey r "meta/upstream_head" with
  | Except.ok (Content.utf8 s) =>
      match Oid.parse s with
      | some o => Except.ok (some o)
      | none => Except.error (ReadError.ioErr upstreamHeadParseMsg)
  | Except.ok (Content.binary _) => Except.ok none
  | Except.error ReadError.notFound => Except.ok none
  | Except.error e => Except.error e

/-- Lines 114-135: `meta/upstream` — like `upstream_head` but with the
empty string explicitly treated as unset. -/
def fieldUpstream (r : Store) : Except ReadError (Option RemoteRefname) :=
  match readKey r "meta/upstream" with
  | Except.ok (Content.utf8 s) =>
      if s = "" then Except.ok none
      else
        match RemoteRefname.parse s with
        | some u => Except.ok (some u)
        | none => Except.error (ReadError.ioErr upstreamParseMsg)
  | Except.ok (Content.binary _) => Except.ok none
  | Except.error ReadError.notFound => Except.ok none
  | Except.error e => Except.error e

/-- Line 137: read `meta/tree` and convert to text (parsing happens later,
inside the struct literal). -/
def fieldTreeStr (r : Store) : Except ReadError String :=
  match readKey r "meta/tree" with
  | Except.error e => Except.error e
  | Except.ok c => contentToString c

/-- Line 138: read `meta/head` and convert to text. -/
def fieldHeadStr (r : Store) : Except ReadError String :=
  match readKey r "meta/head" with
  | Except.error e => Except.error e
  | Except.ok c => contentToString c

/-- Line 139: `meta/created_timestamp_ms` as an unsigned 128-bit value. -/
def fieldCreated (r : Store) : Except ReadError Nat :=
  match readKey r "meta/created_timestamp_ms" with
  | Except.error e => Except.error e
  | Except.ok c => contentToNat u128Bound c

/-- Line 140: `meta/updated_timestamp_ms` as an unsigned 128-bit value. -/
def fieldUpdated (r : Store) : Except ReadError Nat :=
  match readKey r "meta/updated_timestamp_ms" with
  | Except.error e => Except.error e
  | Except.ok c => contentToNat u128Bound c

/-- Lines 142-148: read `meta/ownership`, convert to text, parse the
ownership encoding (failure wrapped with the key name). -/
def fieldOwnership (r : Store) : Except ReadError Ownership :=
  match readKey r "meta/ownership" with
  | Except.error e => Except.error e
  | Except.ok c =>
      match contentToString c with
      | Except.error e => Except.error e
      | Except.ok s =>
          match Ownership.parse s with
          | some o => Except.ok o
          | none => Except.error (ReadError.ioErr ownershipParseMsg)

/-- Lines 157-168: the deferred oid parsing of the tree/head text, wrapped
with the key name. -/
def oidNamed (k : String) (s : String) : Except ReadError Oid :=
  match Oid.parse s with
  | some o => Except.ok o
  | none => Except.error (ReadError.ioErr (k ++ ": malformed oid"))

/-- The whole of `try_from` (source lines 71-174): fields are evaluated in
source order; note that the oid parsing of `meta/tree` and `meta/head`
happens inside the final struct literal, after `meta/ownership` parsing. -/
def loadBranch (r : Store) : Except ReadError Branch := do
  let id ← fieldId r
  let name ← fieldName r
  let notes ← fieldNotes r
  let order ← fieldOrder r
  let upstream_head ← fieldUpstreamHead r
  let upstream ← fieldUpstream r
  let treeS ← fieldTreeStr r
  let headS ← fieldHeadStr r
  let created ← fieldCreated r
  let updated ← fieldUpdated r
  let ownership ← fieldOwnership r
  let tree ← oidNamed "meta/tree" treeS
  let head ← oidNamed "meta/head" headS
  Except.ok
    { id := id
      name := name
      notes := notes
      applied := fieldApplied r
      upstream := upstream
      upstream_head := upstream_head
      created_timestamp_ms := created
      updated_timestamp_ms := updated
      tree := tree
      head := head
      ownership := ownership
      order := order }

/-- The first failing per-field computation, in the source's actual
evaluation order: the reads and conversions in source line order, with the
deferred oid parsing of `meta/tree` and `meta/head` last. -/
def errChain {α : Type} (x : Except ReadError α) (rest : α → Option ReadError) :
    Option ReadError :=
  match x with
  | Except.error e => some e
  | Except.ok a => rest a

def firstFailure (r : Store) : Option ReadError :=
  errChain (fieldId r) fun _ =>
  errChain (fieldName r) fun _ =>
  errChain (fieldNotes r) fun _ =>
  errChain (fieldOrder r) fun _ =>
  errChain (fieldUpstreamHead r) fun _ =>
  errChain (fieldUpstream r) fun _ =>
  errChain (fieldTreeStr r) fun treeS =>
  errChain (fieldHeadStr r) fun headS =>
  errChain (fieldCreated r) fun _ =>
  errChain (fieldUpdated r) fun _ =>
  errChain (fieldOwnership r) fun _ =>
  errChain (oidNamed "meta/tree" treeS) fun _ =>
  errChain (oidNamed "meta/head" headS) fun _ => none

/-! ## Plumbing lemmas -/

theorem ebind_err {α β : Type} (e : ReadError) (f : α → Except ReadError β) :
    (Except.error e >>= f) = Except.error e := rfl

theorem ebind_ok {α β : Type} (a : α) (f : α → Except ReadError β) :
    (Except.ok a >>= f) = f a := rfl

theorem errChain_err {α : Type} (e : ReadError) (f : α → Option ReadError) :
    errChain (Except.error e) f = some e := rfl

theorem errChain_ok {α : Type} (a : α) (f : α → Option ReadError) :
    errChain (Except.ok a) f = f a := rfl

theorem step_ok {α β : Type} {x : Except ReadError α} {f : α → Except ReadError β}
    {b : β} (h : (x >>= f) = Except.ok b) :
    ∃ a, x = Except.ok a ∧ f a = Except.ok b := by
  cases x with
  | error e => exact absurd h (by simp [ebind_err])
  | ok a => exact ⟨a, rfl, h⟩

theorem step_err {α β : Type} {x : Except ReadError α} {f : α → Except ReadError β}
    {e : ReadError} (h : (x >>= f) = Except.error e) :
    x = Except.error e ∨ ∃ a, x = Except.ok a ∧ f a = Except.error e := by
  cases x with
  | error e1 =>
      rw [ebind_err] at h
      injection h with he
      exact Or.inl (by rw [he])
  | ok a => exact Or.inr ⟨a, rfl, h⟩

theorem chain_step {α : Type} {x : Except ReadError α} {f : α → Option ReadError}
    {e : ReadError} (h : errChain x f = some e) :
    x = Except.error e ∨ ∃ a, x = Except.ok a ∧ f a = some e := by
  cases x with
  | error e1 => simp [errChain_err] at h; exact Or.inl (by rw [h])
  | ok a => exact Or.inr ⟨a, rfl, h⟩

theorem readKey_none {r : Store} {k : String} (h : r k = none) :
    readKey r k = Except.error ReadError.notFound := by
  unfold readKey; rw [h]

theorem readKey_some {r : Store} {k : String} {c : Content} (h : r k = some c) :
    readKey r k = Except.ok c := by
  unfold readKey; rw [h]

/-- Successful loading determines every per-field computation: a master
projection lemma tying `loadBranch` to the per-field definitions. -/
theorem load_ok_spec (r : Store) (b : Branch) (h : loadBranch r = Except.ok b) :
    fieldId r = Except.ok b.id ∧ fieldName r = Except.ok b.name ∧
    fieldNotes r = Except.ok b.notes ∧ b.applied = fieldApplied r ∧
    fieldOrder r = Except.ok b.order ∧
    fieldUpstreamHead r = Except.ok b.upstream_head ∧
    fieldUpstream r = Except.ok b.upstream ∧
    (∃ ts, fieldTreeStr r = Except.ok ts ∧ oidNamed "meta/tree" ts = Except.ok b.tree) ∧
    (∃ hs, fieldHeadStr r = Except.ok hs ∧ oidNamed "meta/head" hs = Except.ok b.head) ∧
    fieldCreated r = Except.ok b.created_timestamp_ms ∧
    fieldUpdated r = Except.ok b.updated_timestamp_ms ∧
    fieldOwnership r = Except.ok b.ownership := by
  unfold loadBranch at h
  obtain ⟨v1, h1, h⟩ := step_ok h
  obtain ⟨v2, h2, h⟩ := step_ok h
  obtain ⟨v3, h3, h⟩ := step_ok h
  obtain ⟨v4, h4, h⟩ := step_ok h
  obtain ⟨v5, h5, h⟩ := step_ok h
  obtain ⟨v6, h6, h⟩ := step_ok h
  obtain ⟨v7, h7, h⟩ := step_ok h
  obtain ⟨v8, h8, h⟩ := step_ok h
  obtain ⟨v9, h9, h⟩ := step_ok h
  obtain ⟨v10, h10, h⟩ := step_ok h
  obtain ⟨v11, h11, h⟩ := step_ok h
  obtain ⟨v12, h12, h⟩ := step_ok h
  obtain ⟨v13, h13, h⟩ := step_ok h
  injection h with hb
  subst hb
  exact ⟨h1, h2, h3, rfl, h4, h5, h6, ⟨v7, h7, h12⟩, ⟨v8, h8, h13⟩, h9, h10, h11⟩

/-- Every load failure is the failure of one of the per-field
computations. -/
theorem load_err_sources (r : Store) (e : ReadError)
    (h : loadBranch r = Except.error e) :
    fieldId r = Except.error e ∨ fieldName r = Except.error e ∨
    fieldNotes r = Except.error e ∨ fieldOrder r = Except.error e ∨
    fieldUpstreamHead r = Except.error e ∨ fieldUpstream r = Except.error e ∨
    fieldTreeStr r = Except.error e ∨ fieldHeadStr r = Except.error e ∨
    fieldCreated r = Except.error e ∨ fieldUpdated r = Except.error e ∨
    fieldOwnership r = Except.error e ∨
    (∃ s, oidNamed "meta/tree" s = Except.error e) ∨
    (∃ s, oidNamed "meta/head" s = Except.error e) := by
  unfold loadBranch at h
  rcases step_err h with h1 | ⟨v1, h1, h⟩
  · exact Or.inl h1
  rcases step_err h with h2 | ⟨v2, h2, h⟩
  · exact Or.inr (Or.inl h2)
  rcases step_err h with h3 | ⟨v3, h3, h⟩
  · exact Or.inr (Or.inr (Or.inl h3))
  rcases step_err h with h4 | ⟨v4, h4, h⟩
  · exact Or.inr (Or.inr (Or.inr (Or.inl h4)))
  rcases step_err h with h5 | ⟨v5, h5, h⟩
  · exact Or.inr (Or.inr (Or.inr (Or.inr (Or.inl h5))))
  rcases step_err h with h6 | ⟨v6, h6, h⟩
  · exact Or.inr (Or.inr (Or.inr (Or.inr (Or.inr (Or.inl h6)))))
  rcases step_err h with h7 | ⟨v7, h7, h⟩
  · exact Or.inr (Or.inr (Or.inr (Or.inr (Or.inr (Or.inr (Or.inl h7))))))
  rcases step_err h with h8 | ⟨v8, h8, h⟩
  · exact Or.inr (Or.inr (Or.inr (Or.inr (Or.inr (Or.inr (Or.inr (Or.inl h8)))))))
  rcases step_err h with h9 | ⟨v9, h9, h⟩
  · exact Or.inr (Or.inr (Or.inr (Or.inr (Or.inr (Or.inr (Or.inr (Or.inr
      (Or.inl h9))))))))
  rcases step_err h with h10 | ⟨v10, h10, h⟩
  · exact Or.inr (Or.inr (Or.inr (Or.inr (Or.inr (Or.inr (Or.inr (Or.inr
      (Or.inr (Or.inl h10)))))))))
  rcases step_err h with h11 | ⟨v11, h11, h⟩
  · exact Or.inr (Or.inr (Or.inr (Or.inr (Or.inr (Or.inr (Or.inr (Or.inr
      (Or.inr (Or.inr (Or.inl h11))))))))))
  rcases step_err h with h12 | ⟨v12, h12, h⟩
  · exact Or.inr (Or.inr (Or.inr (Or.inr (Or.inr (Or.inr (Or.inr (Or.inr
      (Or.inr (Or.inr (Or.inr (Or.inl ⟨v7, h12⟩)))))))))))
  rcases step_err h with h13 | ⟨v13, h13, h⟩
  · exact Or.inr (Or.inr (Or.inr (Or.inr (Or.inr (Or.inr (Or.inr (Or.inr
      (Or.inr (Or.inr (Or.inr (Or.inr ⟨v8, h13⟩)))))))))))
  exact absurd h (by simp)

/-- `loadBranch` fails with `e` exactly when `e` is the first failing
per-field computation in the source's evaluation order. -/
theorem load_err_spec (r : Store) (e : ReadError) :
    loadBranch r = Except.error e ↔ firstFailure r = some e := by
  constructor
  · intro h
    unfold loadBranch at h
    rcases step_err h with h1 | ⟨v1, h1, h⟩
    · simp only [firstFailure, h1, errChain_err]
    rcases step_err h with h2 | ⟨v2, h2, h⟩
    · simp only [firstFailure, h1, h2, errChain_ok, errChain_err]
    rcases step_err h with h3 | ⟨v3, h3, h⟩
    · simp only [firstFailure, h1, h2, h3, errChain_ok, errChain_err]
    rcases step_err h with h4 | ⟨v4, h4, h⟩
    · simp only [firstFailure, h1, h2, h3, h4, errChain_ok, errChain_err]
    rcases step_err h with h5 | ⟨v5, h5, h⟩
    · simp only [firstFailure, h1, h2, h3, h4, h5, errChain_ok, errChain_err]
    rcases step_err h with h6 | ⟨v6, h6, h⟩
    · simp only [firstFailure, h1, h2, h3, h4, h5, h6, errChain_ok, errChain_err]
    rcases step_err h with h7 | ⟨v7, h7, h⟩
    · simp only [firstFailure, h1, h2, h3, h4, h5, h6, h7, errChain_ok, errChain_err]
    rcases step_err h with h8 | ⟨v8, h8, h⟩
    · simp only [firstFailure, h1, h2, h3, h4, h5, h6, h7, h8, errChain_ok,
        errChain_err]
    rcases step_err h with h9 | ⟨v9, h9, h⟩
    · simp only [firstFailure, h1, h2, h3, h4, h5, h6, h7, h8, h9, errChain_ok,
        errChain_err]
    rcases step_err h with h10 | ⟨v10, h10, h⟩
    · simp only [firstFailure, h1, h2, h3, h4, h5, h6, h7, h8, h9, h10,
        errChain_ok, errChain_err]
    rcases step_err h with h11 | ⟨v11, h11, h⟩
    · simp only [firstFailure, h1, h2, h3, h4, h5, h6, h7, h8, h9, h10, h11,
        errChain_ok, errChain_err]
    rcases step_err h with h12 | ⟨v12, h12, h⟩
    · simp only [firstFailure, h1, h2, h3, h4, h5, h6, h7, h8, h9, h10, h11,
        h12, errChain_ok, errChain_err]
    rcases step_err h with h13 | ⟨v13, h13, h⟩
    · simp only [firstFailure, h1, h2, h3, h4, h5, h6, h7, h8, h9, h10, h11,
        h12, h13, errChain_ok, errChain_err]
    exact absurd h (by simp)
  · intro h
    unfold firstFailure at h
    rcases chain_step h with h1 | ⟨v1, h1, h⟩
    · simp only [loadBranch, h1, ebind_err]
    rcases chain_step h with h2 | ⟨v2, h2, h⟩
    · simp only [loadBranch, h1, h2, ebind_ok, ebind_err]
    rcases chain_step h with h3 | ⟨v3, h3, h⟩
    · simp only [loadBranch, h1, h2, h3, ebind_ok, ebind_err]
    rcases chain_step h with h4 | ⟨v4, h4, h⟩
    · simp only [loadBranch, h1, h2, h3, h4, ebind_ok, ebind_err]
    rcases chain_step h with h5 | ⟨v5, h5, h⟩
    · simp only [loadBranch, h1, h2, h3, h4, h5, ebind_ok, ebind_err]
    rcases chain_step h with h6 | ⟨v6, h6, h⟩
    · simp only [loadBranch, h1, h2, h3, h4, h5, h6, ebind_ok, ebind_err]
    rcases chain_step h with h7 | ⟨v7, h7, h⟩
    · simp only [loadBranch, h1, h2, h3, h4, h5, h6, h7, ebind_ok, ebind_err]
    rcases chain_step h with h8 | ⟨v8, h8, h⟩
    · simp only [loadBranch, h1, h2, h3, h4, h5, h6, h7, h8, ebind_ok, ebind_err]
    rcases chain_step h with h9 | ⟨v9, h9, h⟩
    · simp only [loadBranch, h1, h2, h3, h4, h5, h6, h7, h8, h9, ebind_ok,
        ebind_err]
    rcases chain_step h with h10 | ⟨v10, h10, h⟩
    · simp only [loadBranch, h1, h2, h3, h4, h5, h6, h7, h8, h9, h10, ebind_ok,
        ebind_err]
    rcases chain_step h with h11 | ⟨v11, h11, h⟩
    · simp only [loadBranch, h1, h2, h3, h4, h5, h6, h7, h8, h9, h10, h11,
        ebind_ok, ebind_err]
    rcases chain_step h with h12 | ⟨v12, h12, h⟩
    · simp only [loadBranch, h1, h2, h3, h4, h5, h6, h7, h8, h9, h10, h11, h12,
        ebind_ok, ebind_err]
    rcases chain_step h with h13 | ⟨v13, h13, h⟩
    · simp only [loadBranch, h1, h2, h3, h4, h5, h6, h7, h8, h9, h10, h11, h12,
        h13, ebind_ok, ebind_err]
    exact absurd h (by simp)

/-! ## Per-field reduction and case lemmas -/

theorem contentToString_cases (c : Content) :
    (∃ s, contentToString c = Except.ok s) ∨
    contentToString c = Except.error (ReadError.conversion utf8ErrMsg) := by
  cases c with
  | utf8 s => exact Or.inl ⟨s, rfl⟩
  | binary bs => exact Or.inr rfl

theorem contentToNat_cases (bound : Nat) (c : Content) :
    (∃ n, contentToNat bound c = Except.ok n) ∨
    (∃ m, contentToNat bound c = Except.error (ReadError.conversion m)) := by
  cases c with
  | binary bs => exact Or.inr ⟨utf8ErrMsg, rfl⟩
  | utf8 s =>
      cases hp : parseDecimal s.data with
      | none =>
          refine Or.inr ⟨decimalErrMsg, ?_⟩
          simp [contentToNat, hp]
      | some n =>
          by_cases hb : n < bound
          · refine Or.inl ⟨n, ?_⟩
            simp [contentToNat, hp, hb]
          · refine Or.inr ⟨rangeErrMsg, ?_⟩
            simp [contentToNat, hp, hb]

theorem fieldId_none {r : Store} (h : r "id" = none) :
    fieldId r = Except.error ReadError.notFound := by
  unfold fieldId; rw [readKey_none h]

theorem fieldId_utf8 {r : Store} {s : String} (h : r "id" = some (Content.utf8 s)) :
    fieldId r =
      match BranchId.parse s with
      | some i => Except.ok i
      | none => Except.error (ReadError.ioErr idParseMsg) := by
  unfold fieldId; rw [readKey_some h]; rfl

theorem fieldId_binary {r : Store} {bs : List Nat}
    (h : r "id" = some (Content.binary bs)) :
    fieldId r = Except.error (ReadError.conversion utf8ErrMsg) := by
  unfold fieldId; rw [readKey_some h]; rfl

theorem fieldId_some_cases {r : Store} {c : Content} (h : r "id" = some c) :
    (∃ i, fieldId r = Except.ok i) ∨
    fieldId r = Except.error (ReadError.conversion utf8ErrMsg) ∨
    fieldId r = Except.error (ReadError.ioErr idParseMsg) := by
  cases c with
  | binary bs => exact Or.inr (Or.inl (fieldId_binary h))
  | utf8 s =>
      rw [fieldId_utf8 h]
      cases hp : BranchId.parse s with
      | some i => exact Or.inl ⟨i, rfl⟩
      | none => exact Or.inr (Or.inr rfl)

theorem fieldName_none {r : Store} (h : r "meta/name" = none) :
    fieldName r = Except.error ReadError.notFound := by
  unfold fieldName; rw [readKey_none h]

theorem fieldName_some {r : Store} {c : Content} (h : r "meta/name" = some c) :
    fieldName r = contentToString c := by
  unfold fieldName; rw [readKey_some h]

theorem fieldNotes_none {r : Store} (h : r "meta/notes" = none) :
    fieldNotes r = Except.ok "" := by
  unfold fieldNotes; rw [readKey_none h]

theorem fieldNotes_some {r : Store} {c : Content} (h : r "meta/notes" = some c) :
    fieldNotes r = contentToString c := by
  unfold fieldNotes; rw [readKey_some h]

theorem fieldOrder_none {r : Store} (h : r "meta/order" = none) :
    fieldOrder r = Except.ok 0 := by
  unfold fieldOrder; rw [readKey_none h]

theorem fieldOrder_some {r : Store} {c : Content} (h : r "meta/order" = some c) :
    fieldOrder r = contentToNat usizeBound c := by
  unfold fieldOrder; rw [readKey_some h]

theorem fieldUpstreamHead_none {r : Store} (h : r "meta/upstream_head" = none) :
    fieldUpstreamHead r = Except.ok none := by
  unfold fieldUpstreamHead; rw [readKey_none h]

theorem fieldUpstreamHead_binary {r : Store} {bs : List Nat}
    (h : r "meta/upstream_head" = some (Content.binary bs)) :
    fieldUpstreamHead r = Except.ok none := by
  unfold fieldUpstreamHead; rw [readKey_some h]

theorem fieldUpstreamHead_utf8 {r : Store} {s : String}
    (h : r "meta/upstream_head" = some (Content.utf8 s)) :
    fieldUpstreamHead r =
      match Oid.parse s with
      | some o => Except.ok (some o)
      | none => Except.error (ReadError.ioErr upstreamHeadParseMsg) := by
  unfold fieldUpstreamHead; rw [readKey_some h]

theorem fieldUpstream_none {r : Store} (h : r "meta/upstream" = none) :
    fieldUpstream r = Except.ok none := by
  unfold fieldUpstream; rw [readKey_none h]

theorem fieldUpstream_binary {r : Store} {bs : List Nat}
    (h : r "meta/upstream" = some (Content.binary bs)) :
    fieldUpstream r = Except.ok none := by
  unfold fieldUpstream; rw [readKey_some h]

theorem fieldUpstream_utf8 {r : Store} {s : String}
    (h : r "meta/upstream" = some (Content.utf8 s)) :
    fieldUpstream r =
      if s = "" then Except.ok none
      else
        match RemoteRefname.parse s with
        | some u => Except.ok (some u)
        | none => Except.error (ReadError.ioErr upstreamParseMsg) := by
  unfold fieldUpstream; rw [readKey_some h]

theorem fieldTreeStr_none {r : Store} (h : r "meta/tree" = none) :
    fieldTreeStr r = Except.error ReadError.notFound := by
  unfold fieldTreeStr; rw [readKey_none h]

theorem fieldTreeStr_some {r : Store} {c : Content} (h : r "meta/tree" = some c) :
    fieldTreeStr r = contentToString c := by
  unfold fieldTreeStr; rw [readKey_some h]

theorem fieldHeadStr_none {r : Store} (h : r "meta/head" = none) :
    fieldHeadStr r = Except.error ReadError.notFound := by
  unfold fieldHeadStr; rw [readKey_none h]

theorem fieldHeadStr_some {r : Store} {c : Content} (h : r "meta/head" = some c) :
    fieldHeadStr r = contentToString c := by
  unfold fieldHeadStr; rw [readKey_some h]

theorem fieldCreated_none {r : Store} (h : r "meta/created_timestamp_ms" = none) :
    fieldCreated r = Except.error ReadError.notFound := by
  unfold fieldCreated; rw [readKey_none h]

theorem fieldCreated_some {r : Store} {c : Content}
    (h : r "meta/created_timestamp_ms" = some c) :
    fieldCreated r = contentToNat u128Bound c := by
  unfold fieldCreated; rw [readKey_some h]

theorem fieldUpdated_none {r : Store} (h : r "meta/updated_timestamp_ms" = none) :
    fieldUpdated r = Except.error ReadError.notFound := by
  unfold fieldUpdated; rw [readKey_none h]

theorem fieldUpdated_some {r : Store} {c : Content}
    (h : r "meta/updated_timestamp_ms" = some c) :
    fieldUpdated r = contentToNat u128Bound c := by
  unfold fieldUpdated; rw [readKey_some h]

theorem fieldOwnership_none {r : Store} (h : r "meta/ownership" = none) :
    fieldOwnership r = Except.error ReadError.notFound := by
  unfold fieldOwnership; rw [readKey_none h]

theorem fieldOwnership_binary {r : Store} {bs : List Nat}
    (h : r "meta/ownership" = some (Content.binary bs)) :
    fieldOwnership r = Except.error (ReadError.conversion utf8ErrMsg) := by
  unfold fieldOwnership; rw [readKey_some h]; rfl

theorem fieldOwnership_utf8 {r : Store} {s : String}
    (h : r "meta/ownership" = some (Content.utf8 s)) :
    fieldOwnership r =
      match Ownership.parse s with
      | some o => Except.ok o
      | none => Except.error (ReadError.ioErr ownershipParseMsg) := by
  unfold fieldOwnership; rw [readKey_some h]; rfl

theorem oidNamed_cases (k s : String) :
    (∃ o, oidNamed k s = Except.ok o) ∨
    oidNamed k s = Except.error (ReadError.ioErr (k ++ ": malformed oid")) := by
  unfold oidNamed
  cases hp : Oid.parse s with
  | some o => exact Or.inl ⟨o, rfl⟩
  | none => exact Or.inr rfl

theorem map_error {α β : Type} (f : α → β) (e : ReadError) :
    Except.map f (Except.error e : Except ReadError α) = Except.error e := rfl

theorem map_ok {α β : Type} (f : α → β) (a : α) :
    Except.map f (Except.ok a : Except ReadError α) = Except.ok (f a) := rfl

/-! ## Each field computation depends only on its own key -/

theorem readKey_congr {r r' : Store} {k : String} (h : r k = r' k) :
    readKey r k = readKey r' k := by
  unfold readKey; rw [h]

theorem fieldId_congr {r r' : Store} (h : r "id" = r' "id") :
    fieldId r = fieldId r' := by
  unfold fieldId; rw [readKey_congr h]

theorem fieldName_congr {r r' : Store} (h : r "meta/name" = r' "meta/name") :
    fieldName r = fieldName r' := by
  unfold fieldName; rw [readKey_congr h]

theorem fieldNotes_congr {r r' : Store} (h : r "meta/notes" = r' "meta/notes") :
    fieldNotes r = fieldNotes r' := by
  unfold fieldNotes; rw [readKey_congr h]

theorem fieldOrder_congr {r r' : Store} (h : r "meta/order" = r' "meta/order") :
    fieldOrder r = fieldOrder r' := by
  unfold fieldOrder; rw [readKey_congr h]

theorem fieldUpstreamHead_congr {r r' : Store}
    (h : r "meta/upstream_head" = r' "meta/upstream_head") :
    fieldUpstreamHead r = fieldUpstreamHead r' := by
  unfold fieldUpstreamHead; rw [readKey_congr h]

theorem fieldUpstream_congr {r r' : Store}
    (h : r "meta/upstream" = r' "meta/upstream") :
    fieldUpstream r = fieldUpstream r' := by
  unfold fieldUpstream; rw [readKey_congr h]

theorem fieldTreeStr_congr {r r' : Store} (h : r "meta/tree" = r' "meta/tree") :
    fieldTreeStr r = fieldTreeStr r' := by
  unfold fieldTreeStr; rw [readKey_congr h]

theorem fieldHeadStr_congr {r r' : Store} (h : r "meta/head" = r' "meta/head") :
    fieldHeadStr r = fieldHeadStr r' := by
  unfold fieldHeadStr; rw [readKey_congr h]

theorem fieldCreated_congr {r r' : Store}
    (h : r "meta/created_timestamp_ms" = r' "meta/created_timestamp_ms") :
    fieldCreated r = fieldCreated r' := by
  unfold fieldCreated; rw [readKey_congr h]

theorem fieldUpdated_congr {r r' : Store}
    (h : r "meta/updated_timestamp_ms" = r' "meta/updated_timestamp_ms") :
    fieldUpdated r = fieldUpdated r' := by
  unfold fieldUpdated; rw [readKey_congr h]

theorem fieldOwnership_congr {r r' : Store}
    (h : r "meta/ownership" = r' "meta/ownership") :
    fieldOwnership r = fieldOwnership r' := by
  unfold fieldOwnership; rw [readKey_congr h]

/-- Whether `loadBranch` fails, and with which error, never depends on the
`meta/applied` key. -/
theorem load_err_agree_applied (r r' : Store)
    (h : ∀ k, k ≠ "meta/applied" → r k = r' k) (e : ReadError) :
    (loadBranch r = Except.error e ↔ loadBranch r' = Except.error e) := by
  rw [load_err_spec, load_err_spec]
  unfold firstFailure
  rw [fieldId_congr (h "id" (by decide)),
    fieldName_congr (h "meta/name" (by decide)),
    fieldNotes_congr (h "meta/notes" (by decide)),
    fieldOrder_congr (h "meta/order" (by decide)),
    fieldUpstreamHead_congr (h "meta/upstream_head" (by decide)),
    fieldUpstream_congr (h "meta/upstream" (by decide)),
    fieldTreeStr_congr (h "meta/tree" (by decide)),
    fieldHeadStr_congr (h "meta/head" (by decide)),
    fieldCreated_congr (h "meta/created_timestamp_ms" (by decide)),
    fieldUpdated_congr (h "meta/updated_timestamp_ms" (by decide)),
    fieldOwnership_congr (h "meta/ownership" (by decide))]

/-! ## Mandatory-field policy -/

def mandatoryKeys : List String :=
  ["id", "meta/name", "meta/tree", "meta/head",
   "meta/created_timestamp_ms", "meta/updated_timestamp_ms", "meta/ownership"]

/-- The full processing of one mandatory key (read, conversion, and — for
tree/head/id/ownership — the typed parse), as performed by `try_from`. -/
def mandCheck (k : String) (r : Store) : Except ReadError Unit :=
  if k = "id" then Except.map (fun _ => ()) (fieldId r)
  else if k = "meta/name" then Except.map (fun _ => ()) (fieldName r)
  else if k = "meta/tree" then
    fieldTreeStr r >>= fun s => Except.map (fun _ => ()) (oidNamed "meta/tree" s)
  else if k = "meta/head" then
    fieldHeadStr r >>= fun s => Except.map (fun _ => ()) (oidNamed "meta/head" s)
  else if k = "meta/created_timestamp_ms" then Except.map (fun _ => ()) (fieldCreated r)
  else if k = "meta/updated_timestamp_ms" then Except.map (fun _ => ()) (fieldUpdated r)
  else if k = "meta/ownership" then Except.map (fun _ => ()) (fieldOwnership r)
  else Except.ok ()

/-- A successful load certifies every mandatory-field check. -/
theorem mandCheck_ok_of_load {r : Store} {b : Branch} (k : String)
    (h : loadBranch r = Except.ok b) : mandCheck k r = Except.ok () := by
  obtain ⟨h1, h2, h3, h4, h5, h6, h7, ⟨ts, hts, htp⟩, ⟨hs, hhs, hhp⟩, h9, h10, h11⟩ :=
    load_ok_spec r b h
  unfold mandCheck
  by_cases e1 : k = "id"
  · simp [e1, h1, map_ok]
  by_cases e2 : k = "meta/name"
  · simp [e1, e2, h2, map_ok]
  by_cases e3 : k = "meta/tree"
  · simp [e1, e2, e3, hts, htp, ebind_ok, map_ok]
  by_cases e4 : k = "meta/head"
  · simp [e1, e2, e3, e4, hhs, hhp, ebind_ok, map_ok]
  by_cases e5 : k = "meta/created_timestamp_ms"
  · simp [e1, e2, e3, e4, e5, h9, map_ok]
  by_cases e6 : k = "meta/updated_timestamp_ms"
  · simp [e1, e2, e3, e4, e5, e6, h10, map_ok]
  by_cases e7 : k = "meta/ownership"
  · simp [e1, e2, e3, e4, e5, e6, e7, h11, map_ok]
  simp [e1, e2, e3, e4, e5, e6, e7]

/-! ## Concrete stores for witnesses and counterexamples -/

def uuidA : String := "0123abcd-0000-4000-8000-0123456789ab"
def oidA : String := "0123456789abcdef0123456789abcdef01234567"
def oidB : String := "aaaaaaaaaaaaaaaaaaaaaaaaaaaaaaaaaaaaaaaa"

/-- A well-formed record holding exactly the mandatory keys. -/
def goodStore : Store := fun k =>
  if k = "id" then some (Content.utf8 uuidA)
  else if k = "meta/name" then some (Content.utf8 "branch one")
  else if k = "meta/tree" then some (Content.utf8 oidA)
  else if k = "meta/head" then some (Content.utf8 oidB)
  else if k = "meta/created_timestamp_ms" then some (Content.utf8 "1")
  else if k = "meta/updated_timestamp_ms" then some (Content.utf8 "2")
  else if k = "meta/ownership" then some (Content.utf8 "src:1-2")
  else none

/-- Point update of a store. -/
def setKey (r : Store) (k : String) (v : Option Content) : Store :=
  fun q => if q = k then v else r q

theorem setKey_same {r : Store} {k : String} {v : Option Content} :
    setKey r k v k = v := by
  unfold setKey; rw [if_pos rfl]

theorem setKey_other {r : Store} {k q : String} {v : Option Content}
    (h : q ≠ k) : setKey r k v q = r q := by
  unfold setKey; rw [if_neg h]

/-- The branch that `goodStore` loads to. -/
def sampleBranch : Branch :=
  { id := ⟨uuidA⟩
    name := "branch one"
    notes := ""
    applied := false
    upstream := none
    upstream_head := none
    created_timestamp_ms := 1
    updated_timestamp_ms := 2
    tree := ⟨oidA⟩
    head := ⟨oidB⟩
    ownership := ⟨[⟨"src", "1-2"⟩]⟩
    order := 0 }

theorem load_goodStore : loadBranch goodStore = Except.ok sampleBranch := rfl

/-! ## Value-level lemmas for the parsed optional fields -/

theorem fieldOwnership_utf8_cases {r : Store} {s : String}
    (h : r "meta/ownership" = some (Content.utf8 s)) :
    (∃ o, fieldOwnership r = Except.ok o) ∨
    fieldOwnership r = Except.error (ReadError.ioErr ownershipParseMsg) := by
  rw [fieldOwnership_utf8 h]
  cases hp : Ownership.parse s with
  | some o => exact Or.inl ⟨o, rfl⟩
  | none => exact Or.inr rfl

theorem fieldUpstreamHead_utf8_ok {r : Store} {s : String} {o : Oid}
    (h : r "meta/upstream_head" = some (Content.utf8 s))
    (hp : Oid.parse s = some o) :
    fieldUpstreamHead r = Except.ok (some o) := by
  rw [fieldUpstreamHead_utf8 h, hp]

theorem fieldUpstreamHead_utf8_err {r : Store} {s : String}
    (h : r "meta/upstream_head" = some (Content.utf8 s))
    (hp : Oid.parse s = none) :
    fieldUpstreamHead r = Except.error (ReadError.ioErr upstreamHeadParseMsg) := by
  rw [fieldUpstreamHead_utf8 h, hp]

theorem fieldUpstream_utf8_empty {r : Store}
    (h : r "meta/upstream" = some (Content.utf8 "")) :
    fieldUpstream r = Except.ok none := by
  rw [fieldUpstream_utf8 h]; simp

theorem fieldUpstream_utf8_ok {r : Store} {s : String} {u : RemoteRefname}
    (h : r "meta/upstream" = some (Content.utf8 s)) (hs : s ≠ "")
    (hp : RemoteRefname.parse s = some u) :
    fieldUpstream r = Except.ok (some u) := by
  rw [fieldUpstream_utf8 h, if_neg hs, hp]

theorem fieldUpstream_utf8_err {r : Store} {s : String}
    (h : r "meta/upstream" = some (Content.utf8 s)) (hs : s ≠ "")
    (hp : RemoteRefname.parse s = none) :
    fieldUpstream r = Except.error (ReadError.ioErr upstreamParseMsg) := by
  rw [fieldUpstream_utf8 h, if_neg hs, hp]

/-! ## mandCheck key-reduction lemmas -/

theorem mandCheck_id (r : Store) :
    mandCheck "id" r = Except.map (fun _ => ()) (fieldId r) := rfl

theorem mandCheck_name (r : Store) :
    mandCheck "meta/name" r = Except.map (fun _ => ()) (fieldName r) := rfl

theorem mandCheck_tree (r : Store) :
    mandCheck "meta/tree" r =
      (fieldTreeStr r >>= fun s => Except.map (fun _ => ()) (oidNamed "meta/tree" s)) := rfl

theorem mandCheck_head (r : Store) :
    mandCheck "meta/head" r =
      (fieldHeadStr r >>= fun s => Except.map (fun _ => ()) (oidNamed "meta/head" s)) := rfl

theorem mandCheck_created (r : Store) :
    mandCheck "meta/created_timestamp_ms" r =
      Except.map (fun _ => ()) (fieldCreated r) := rfl

theorem mandCheck_updated (r : Store) :
    mandCheck "meta/updated_timestamp_ms" r =
      Except.map (fun _ => ()) (fieldUpdated r) := rfl

theorem mandCheck_own (r : Store) :
    mandCheck "meta/ownership" r = Except.map (fun _ => ()) (fieldOwnership r) := rfl

/-! ## Claim C1 -/

/-- C1: for every store state, each mandatory key (`id`, `meta/name`,
`meta/tree`, `meta/head`, `meta/created_timestamp_ms`,
`meta/updated_timestamp_ms`, `meta/ownership`) that is absent makes that
field's processing fail with the not-found error and prevents `loadBranch`
from returning a branch; and when such a key is present but its content
fails its typed conversion or parse, the field's processing fails with an
invalid-content (non-not-found) error and `loadBranch` again returns no
branch. -/
theorem c1_mandatory_policy (r : Store) (k : String) (b : Branch)
    (hk : k ∈ mandatoryKeys) :
    (r k = none →
      mandCheck k r = Except.error ReadError.notFound ∧
      loadBranch r ≠ Except.ok b) ∧
    (∀ c e, r k = some c → mandCheck k r = Except.error e →
      e ≠ ReadError.notFound ∧ loadBranch r ≠ Except.ok b) := by
  have hfail : ∀ e, mandCheck k r = Except.error e → loadBranch r ≠ Except.ok b := by
    intro e hmc hok
    rw [mandCheck_ok_of_load k hok] at hmc
    exact absurd hmc (by simp)
  simp only [mandatoryKeys, List.mem_cons, List.not_mem_nil, or_false] at hk
  constructor
  · intro habs
    have hmc : mandCheck k r = Except.error ReadError.notFound := by
      rcases hk with rfl | rfl | rfl | rfl | rfl | rfl | rfl
      · rw [mandCheck_id, fieldId_none habs, map_error]
      · rw [mandCheck_name, fieldName_none habs, map_error]
      · rw [mandCheck_tree, fieldTreeStr_none habs, ebind_err]
      · rw [mandCheck_head, fieldHeadStr_none habs, ebind_err]
      · rw [mandCheck_created, fieldCreated_none habs, map_error]
      · rw [mandCheck_updated, fieldUpdated_none habs, map_error]
      · rw [mandCheck_own, fieldOwnership_none habs, map_error]
    exact ⟨hmc, hfail _ hmc⟩
  · intro c e hc hmc
    refine ⟨?_, hfail e hmc⟩
    rcases hk with rfl | rfl | rfl | rfl | rfl | rfl | rfl
    · rw [mandCheck_id] at hmc
      rcases fieldId_some_cases hc with ⟨i, hi⟩ | hi | hi
      · rw [hi, map_ok] at hmc; exact absurd hmc (by simp)
      · rw [hi, map_error] at hmc; injection hmc with he; rw [← he]; simp
      · rw [hi, map_error] at hmc; injection hmc with he; rw [← he]; simp
    · rw [mandCheck_name, fieldName_some hc] at hmc
      rcases contentToString_cases c with ⟨s, hcs⟩ | hcs
      · rw [hcs, map_ok] at hmc; exact absurd hmc (by simp)
      · rw [hcs, map_error] at hmc; injection hmc with he; rw [← he]; simp
    · rw [mandCheck_tree, fieldTreeStr_some hc] at hmc
      rcases contentToString_cases c with ⟨s, hcs⟩ | hcs
      · rw [hcs, ebind_ok] at hmc
        rcases oidNamed_cases "meta/tree" s with ⟨o, ho⟩ | ho
        · rw [ho, map_ok] at hmc; exact absurd hmc (by simp)
        · rw [ho, map_error] at hmc; injection hmc with he; rw [← he]; simp
      · rw [hcs, ebind_err] at hmc; injection hmc with he; rw [← he]; simp
    · rw [mandCheck_head, fieldHeadStr_some hc] at hmc
      rcases contentToString_cases c with ⟨s, hcs⟩ | hcs
      · rw [hcs, ebind_ok] at hmc
        rcases oidNamed_cases "meta/head" s with ⟨o, ho⟩ | ho
        · rw [ho, map_ok] at hmc; exact absurd hmc (by simp)
        · rw [ho, map_error] at hmc; injection hmc with he; rw [← he]; simp
      · rw [hcs, ebind_err] at hmc; injection hmc with he; rw [← he]; simp
    · rw [mandCheck_created, fieldCreated_some hc] at hmc
      rcases contentToNat_cases u128Bound c with ⟨n, hn⟩ | ⟨m, hn⟩
      · rw [hn, map_ok] at hmc; exact absurd hmc (by simp)
      · rw [hn, map_error] at hmc; injection hmc with he; rw [← he]; simp
    · rw [mandCheck_updated, fieldUpdated_some hc] at hmc
      rcases contentToNat_cases u128Bound c with ⟨n, hn⟩ | ⟨m, hn⟩
      · rw [hn, map_ok] at hmc; exact absurd hmc (by simp)
      · rw [hn, map_error] at hmc; injection hmc with he; rw [← he]; simp
    · rw [mandCheck_own] at hmc
      cases c with
      | binary bs =>
          rw [fieldOwnership_binary hc, map_error] at hmc
          injection hmc with he; rw [← he]; simp
      | utf8 s =>
          rcases fieldOwnership_utf8_cases hc with ⟨o, ho⟩ | ho
          · rw [ho, map_ok] at hmc; exact absurd hmc (by simp)
          · rw [ho, map_error] at hmc; injection hmc with he; rw [← he]; simp

/-- A record identical to `goodStore` except that `meta/tree` is absent. -/
def mtAbsStore : Store := setKey goodStore "meta/tree" none

theorem c1_mandatory_policy_witness :
    mandCheck "meta/tree" mtAbsStore = Except.error ReadError.notFound ∧
    loadBranch mtAbsStore ≠ Except.ok sampleBranch ∧
    loadBranch mtAbsStore = Except.error ReadError.notFound := by
  have h := (c1_mandatory_policy mtAbsStore "meta/tree" sampleBranch (by decide)).1 rfl
  exact ⟨h.1, h.2, rfl⟩

/-! ## Error characterization of each field computation -/

theorem err_eq {α : Type} {x : Except ReadError α} {e1 e2 : ReadError}
    (h1 : x = Except.error e1) (h2 : x = Except.error e2) : e2 = e1 := by
  injection (h1.symm.trans h2).symm

theorem ok_ne_err {α : Type} {x : Except ReadError α} {a : α} {e : ReadError}
    (h1 : x = Except.ok a) (h2 : x = Except.error e) : False := by
  rw [h1] at h2; exact absurd h2 (by simp)

theorem fieldUpstreamHead_utf8_cases {r : Store} {s : String}
    (h : r "meta/upstream_head" = some (Content.utf8 s)) :
    (∃ v, fieldUpstreamHead r = Except.ok v) ∨
    fieldUpstreamHead r = Except.error (ReadError.ioErr upstreamHeadParseMsg) := by
  rw [fieldUpstreamHead_utf8 h]
  cases hp : Oid.parse s with
  | some o => exact Or.inl ⟨some o, rfl⟩
  | none => exact Or.inr rfl

theorem fieldUpstream_utf8_cases {r : Store} {s : String}
    (h : r "meta/upstream" = some (Content.utf8 s)) :
    (∃ v, fieldUpstream r = Except.ok v) ∨
    fieldUpstream r = Except.error (ReadError.ioErr upstreamParseMsg) := by
  rw [fieldUpstream_utf8 h]
  by_cases hs : s = ""
  · rw [if_pos hs]; exact Or.inl ⟨none, rfl⟩
  · rw [if_neg hs]
    cases hp : RemoteRefname.parse s with
    | some u => exact Or.inl ⟨some u, rfl⟩
    | none => exact Or.inr rfl

theorem fieldId_err {r : Store} {e : ReadError} (h : fieldId r = Except.error e) :
    e = ReadError.notFound ∨ e = ReadError.conversion utf8ErrMsg ∨
    e = ReadError.ioErr idParseMsg := by
  cases hr : r "id" with
  | none => exact Or.inl (err_eq (fieldId_none hr) h)
  | some c =>
      rcases fieldId_some_cases hr with ⟨i, hi⟩ | hi | hi
      · exact absurd (ok_ne_err hi h) (by simp)
      · exact Or.inr (Or.inl (err_eq hi h))
      · exact Or.inr (Or.inr (err_eq hi h))

theorem fieldName_err {r : Store} {e : ReadError}
    (h : fieldName r = Except.error e) :
    e = ReadError.notFound ∨ e = ReadError.conversion utf8ErrMsg := by
  cases hr : r "meta/name" with
  | none => exact Or.inl (err_eq (fieldName_none hr) h)
  | some c =>
      rw [fieldName_some hr] at h
      rcases contentToString_cases c with ⟨s, hcs⟩ | hcs
      · exact absurd (ok_ne_err hcs h) (by simp)
      · exact Or.inr (err_eq hcs h)

theorem fieldNotes_err {r : Store} {e : ReadError}
    (h : fieldNotes r = Except.error e) :
    e = ReadError.conversion utf8ErrMsg := by
  cases hr : r "meta/notes" with
  | none => exact absurd (ok_ne_err (fieldNotes_none hr) h) (by simp)
  | some c =>
      rw [fieldNotes_some hr] at h
      rcases contentToString_cases c with ⟨s, hcs⟩ | hcs
      · exact absurd (ok_ne_err hcs h) (by simp)
      · exact err_eq hcs h

theorem fieldOrder_err {r : Store} {e : ReadError}
    (h : fieldOrder r = Except.error e) :
    ∃ m, e = ReadError.conversion m := by
  cases hr : r "meta/order" with
  | none => exact absurd (ok_ne_err (fieldOrder_none hr) h) (by simp)
  | some c =>
      rw [fieldOrder_some hr] at h
      rcases contentToNat_cases usizeBound c with ⟨n, hn⟩ | ⟨m, hn⟩
      · exact absurd (ok_ne_err hn h) (by simp)
      · exact ⟨m, err_eq hn h⟩

theorem fieldUpstreamHead_err {r : Store} {e : ReadError}
    (h : fieldUpstreamHead r = Except.error e) :
    e = ReadError.ioErr upstreamHeadParseMsg := by
  cases hr : r "meta/upstream_head" with
  | none => exact absurd (ok_ne_err (fieldUpstreamHead_none hr) h) (by simp)
  | some c =>
      cases c with
      | binary bs => exact absurd (ok_ne_err (fieldUpstreamHead_binary hr) h) (by simp)
      | utf8 s =>
          rcases fieldUpstreamHead_utf8_cases hr with ⟨v, hv⟩ | hv
          · exact absurd (ok_ne_err hv h) (by simp)
          · exact err_eq hv h

theorem fieldUpstream_err {r : Store} {e : ReadError}
    (h : fieldUpstream r = Except.error e) :
    e = ReadError.ioErr upstreamParseMsg := by
  cases hr : r "meta/upstream" with
  | none => exact absurd (ok_ne_err (fieldUpstream_none hr) h) (by simp)
  | some c =>
      cases c with
      | binary bs => exact absurd (ok_ne_err (fieldUpstream_binary hr) h) (by simp)
      | utf8 s =>
          rcases fieldUpstream_utf8_cases hr with ⟨v, hv⟩ | hv
          · exact absurd (ok_ne_err hv h) (by simp)
          · exact err_eq hv h

theorem fieldTreeStr_err {r : Store} {e : ReadError}
    (h : fieldTreeStr r = Except.error e) :
    e = ReadError.notFound ∨ e = ReadError.conversion utf8ErrMsg := by
  cases hr : r "meta/tree" with
  | none => exact Or.inl (err_eq (fieldTreeStr_none hr) h)
  | some c =>
      rw [fieldTreeStr_some hr] at h
      rcases contentToString_cases c with ⟨s, hcs⟩ | hcs
      · exact absurd (ok_ne_err hcs h) (by simp)
      · exact Or.inr (err_eq hcs h)

theorem fieldHeadStr_err {r : Store} {e : ReadError}
    (h : fieldHeadStr r = Except.error e) :
    e = ReadError.notFound ∨ e = ReadError.conversion utf8ErrMsg := by
  cases hr : r "meta/head" with
  | none => exact Or.inl (err_eq (fieldHeadStr_none hr) h)
  | some c =>
      rw [fieldHeadStr_some hr] at h
      rcases contentToString_cases c with ⟨s, hcs⟩ | hcs
      · exact absurd (ok_ne_err hcs h) (by simp)
      · exact Or.inr (err_eq hcs h)

theorem fieldCreated_err {r : Store} {e : ReadError}
    (h : fieldCreated r = Except.error e) :
    e = ReadError.notFound ∨ ∃ m, e = ReadError.conversion m := by
  cases hr : r "meta/created_timestamp_ms" with
  | none => exact Or.inl (err_eq (fieldCreated_none hr) h)
  | some c =>
      rw [fieldCreated_some hr] at h
      rcases contentToNat_cases u128Bound c with ⟨n, hn⟩ | ⟨m, hn⟩
      · exact absurd (ok_ne_err hn h) (by simp)
      · exact Or.inr ⟨m, err_eq hn h⟩

theorem fieldUpdated_err {r : Store} {e : ReadError}
    (h : fieldUpdated r = Except.error e) :
    e = ReadError.notFound ∨ ∃ m, e = ReadError.conversion m := by
  cases hr : r "meta/updated_timestamp_ms" with
  | none => exact Or.inl (err_eq (fieldUpdated_none hr) h)
  | some c =>
      rw [fieldUpdated_some hr] at h
      rcases contentToNat_cases u128Bound c with ⟨n, hn⟩ | ⟨m, hn⟩
      · exact absurd (ok_ne_err hn h) (by simp)
      · exact Or.inr ⟨m, err_eq hn h⟩

theorem fieldOwnership_err {r : Store} {e : ReadError}
    (h : fieldOwnership r = Except.error e) :
    e = ReadError.notFound ∨ e = ReadError.conversion utf8ErrMsg ∨
    e = ReadError.ioErr ownershipParseMsg := by
  cases hr : r "meta/ownership" with
  | none => exact Or.inl (err_eq (fieldOwnership_none hr) h)
  | some c =>
      cases c with
      | binary bs => exact Or.inr (Or.inl (err_eq (fieldOwnership_binary hr) h))
      | utf8 s =>
          rcases fieldOwnership_utf8_cases hr with ⟨o, ho⟩ | ho
          · exact absurd (ok_ne_err ho h) (by simp)
          · exact Or.inr (Or.inr (err_eq ho h))

theorem oidNamed_err {k s : String} {e : ReadError}
    (h : oidNamed k s = Except.error e) :
    e = ReadError.ioErr (k ++ ": malformed oid") := by
  rcases oidNamed_cases k s with ⟨o, ho⟩ | ho
  · exact absurd (ok_ne_err ho h) (by simp)
  · exact err_eq ho h

/-! ## Claim C2 -/

/-- Does this error carry a key name as context (message of the shape
`key: cause`)? -/
def errNamesKey (e : ReadError) (k : String) : Bool :=
  match e with
  | ReadError.ioErr m => (k ++ ": ").data.isPrefixOf m.data
  | _ => false

/-- All keys the loader ever touches. -/
def allKeys : List String :=
  ["id", "meta/name", "meta/notes", "meta/applied", "meta/order",
   "meta/upstream_head", "meta/upstream", "meta/tree", "meta/head",
   "meta/created_timestamp_ms", "meta/updated_timestamp_ms", "meta/ownership"]

/-- The keys whose semantic parse failures `try_from` wraps with the key
name. -/
def parseWrappedKeys : List String :=
  ["id", "meta/upstream_head", "meta/upstream", "meta/tree", "meta/head",
   "meta/ownership"]

/-- A record identical to `goodStore` except that `id` is absent. -/
def idAbsStore : Store := setKey goodStore "id" none

/-- C2 counterexample: with only `id` missing, `loadBranch` returns the
bare `NotFound` error, which names no key at all — so the load error is
not always wrapped with the failing field's key name. -/
theorem c2_counterexample :
    loadBranch idAbsStore = Except.error ReadError.notFound ∧
    (allKeys.all fun k => !errNamesKey ReadError.notFound k) = true :=
  ⟨rfl, by decide⟩

/-- C2 amended: only semantic parse failures are wrapped with the
originating key name; an absent key surfaces as the context-free
`NotFound` and a content-shape conversion failure as a context-free
conversion error.  Every load error is of one of these three shapes. -/
theorem c2_wrap_policy (r : Store) (e : ReadError)
    (h : loadBranch r = Except.error e) :
    e = ReadError.notFound ∨ (∃ m, e = ReadError.conversion m) ∨
    (∃ k, k ∈ parseWrappedKeys ∧ errNamesKey e k = true) := by
  rcases load_err_sources r e h with
    h1 | h1 | h1 | h1 | h1 | h1 | h1 | h1 | h1 | h1 | h1 | ⟨s, h1⟩ | ⟨s, h1⟩
  · rcases fieldId_err h1 with he | he | he
    · exact Or.inl he
    · exact Or.inr (Or.inl ⟨utf8ErrMsg, he⟩)
    · exact Or.inr (Or.inr ⟨"id", by decide, by rw [he]; decide⟩)
  · rcases fieldName_err h1 with he | he
    · exact Or.inl he
    · exact Or.inr (Or.inl ⟨utf8ErrMsg, he⟩)
  · exact Or.inr (Or.inl ⟨utf8ErrMsg, fieldNotes_err h1⟩)
  · exact Or.inr (Or.inl (fieldOrder_err h1))
  · exact Or.inr (Or.inr ⟨"meta/upstream_head", by decide,
      by rw [fieldUpstreamHead_err h1]; decide⟩)
  · exact Or.inr (Or.inr ⟨"meta/upstream", by decide,
      by rw [fieldUpstream_err h1]; decide⟩)
  · rcases fieldTreeStr_err h1 with he | he
    · exact Or.inl he
    · exact Or.inr (Or.inl ⟨utf8ErrMsg, he⟩)
  · rcases fieldHeadStr_err h1 with he | he
    · exact Or.inl he
    · exact Or.inr (Or.inl ⟨utf8ErrMsg, he⟩)
  · rcases fieldCreated_err h1 with he | he
    · exact Or.inl he
    · exact Or.inr (Or.inl he)
  · rcases fieldUpdated_err h1 with he | he
    · exact Or.inl he
    · exact Or.inr (Or.inl he)
  · rcases fieldOwnership_err h1 with he | he | he
    · exact Or.inl he
    · exact Or.inr (Or.inl ⟨utf8ErrMsg, he⟩)
    · exact Or.inr (Or.inr ⟨"meta/ownership", by decide, by rw [he]; decide⟩)
  · exact Or.inr (Or.inr ⟨"meta/tree", by decide, by rw [oidNamed_err h1]; decide⟩)
  · exact Or.inr (Or.inr ⟨"meta/head", by decide, by rw [oidNamed_err h1]; decide⟩)

/-- A record identical to `goodStore` except that `meta/ownership` holds
malformed text. -/
def ownBadStore : Store :=
  setKey goodStore "meta/ownership" (some (Content.utf8 "nocolon"))

theorem c2_wrap_policy_witness :
    ReadError.ioErr ownershipParseMsg = ReadError.notFound ∨
    (∃ m, ReadError.ioErr ownershipParseMsg = ReadError.conversion m) ∨
    (∃ k, k ∈ parseWrappedKeys ∧
      errNamesKey (ReadError.ioErr ownershipParseMsg) k = true) :=
  c2_wrap_policy ownBadStore (ReadError.ioErr ownershipParseMsg) rfl

/-! ## Claim C3 -/

/-- C3: when `meta/notes` (resp. `meta/order`) is absent, a successful
load carries the default `""` (resp. `0`); when the key is present but its
content fails conversion to the expected type, the load fails instead of
applying the default. -/
theorem c3_notes_order_policy (r : Store) (b : Branch) :
    (r "meta/notes" = none → loadBranch r = Except.ok b → b.notes = "") ∧
    (r "meta/order" = none → loadBranch r = Except.ok b → b.order = 0) ∧
    (∀ c e, r "meta/notes" = some c → contentToString c = Except.error e →
      loadBranch r ≠ Except.ok b) ∧
    (∀ c e, r "meta/order" = some c → contentToNat usizeBound c = Except.error e →
      loadBranch r ≠ Except.ok b) := by
  refine ⟨?_, ?_, ?_, ?_⟩
  · intro habs hok
    have h3 := (load_ok_spec r b hok).2.2.1
    rw [fieldNotes_none habs] at h3
    injection h3 with he
    exact he.symm
  · intro habs hok
    have h4 := (load_ok_spec r b hok).2.2.2.2.1
    rw [fieldOrder_none habs] at h4
    injection h4 with he
    exact he.symm
  · intro c e hc hcs hok
    have h3 := (load_ok_spec r b hok).2.2.1
    rw [fieldNotes_some hc, hcs] at h3
    exact absurd h3 (by simp)
  · intro c e hc hcn hok
    have h4 := (load_ok_spec r b hok).2.2.2.2.1
    rw [fieldOrder_some hc, hcn] at h4
    exact absurd h4 (by simp)

def notesBadStore : Store := setKey goodStore "meta/notes" (some (Content.binary [0]))
def orderBadStore : Store := setKey goodStore "meta/order" (some (Content.utf8 "x"))

theorem c3_notes_order_policy_witness :
    sampleBranch.notes = "" ∧ sampleBranch.order = 0 ∧
    loadBranch notesBadStore ≠ Except.ok sampleBranch ∧
    loadBranch orderBadStore ≠ Except.ok sampleBranch :=
  ⟨(c3_notes_order_policy goodStore sampleBranch).1 rfl load_goodStore,
   (c3_notes_order_policy goodStore sampleBranch).2.1 rfl load_goodStore,
   (c3_notes_order_policy notesBadStore sampleBranch).2.2.1 (Content.binary [0])
     (ReadError.conversion utf8ErrMsg) rfl rfl,
   (c3_notes_order_policy orderBadStore sampleBranch).2.2.2 (Content.utf8 "x")
     (ReadError.conversion decimalErrMsg) rfl rfl⟩

/-! ## Claim C4 -/

theorem fieldApplied_some {r : Store} {c : Content}
    (h : r "meta/applied" = some c) :
    fieldApplied r =
      match contentToBool c with
      | Except.ok v => v
      | Except.error _ => false := by
  unfold fieldApplied; rw [readKey_some h]

/-- `meta/applied` failed to read or convert. -/
def appliedFails (r : Store) : Prop :=
  r "meta/applied" = none ∨
  ∃ c e, r "meta/applied" = some c ∧ contentToBool c = Except.error e

/-- C4: any failure to read or convert `meta/applied` leaves a successful
load with `applied = false`, and whether (and with which error) the load
fails never depends on the `meta/applied` key. -/
theorem c4_applied_leniency (r r' : Store) (b : Branch) (e : ReadError) :
    (loadBranch r = Except.ok b → appliedFails r → b.applied = false) ∧
    ((∀ k, k ≠ "meta/applied" → r k = r' k) →
      (loadBranch r = Except.error e ↔ loadBranch r' = Except.error e)) := by
  constructor
  · intro hok hf
    have h4 := (load_ok_spec r b hok).2.2.2.1
    have hfa : fieldApplied r = false := by
      rcases hf with habs | ⟨c, e1, hc, hcb⟩
      · unfold fieldApplied; rw [readKey_none habs]
      · rw [fieldApplied_some hc, hcb]
    rw [h4, hfa]
  · intro hagree
    exact load_err_agree_applied r r' hagree e

def appliedJunkStore : Store :=
  setKey goodStore "meta/applied" (some (Content.utf8 "junk"))

theorem c4_applied_leniency_witness :
    sampleBranch.applied = false ∧
    (loadBranch appliedJunkStore = Except.error ReadError.notFound ↔
      loadBranch goodStore = Except.error ReadError.notFound) := by
  refine ⟨(c4_applied_leniency appliedJunkStore goodStore sampleBranch
      ReadError.notFound).1 rfl ?_,
    (c4_applied_leniency appliedJunkStore goodStore sampleBranch
      ReadError.notFound).2 ?_⟩
  · exact Or.inr ⟨Content.utf8 "junk",
      ReadError.conversion "expected boolean content", rfl, rfl⟩
  · intro k hk
    exact setKey_other hk

/-! ## Claim C5 -/

/-- C5: `upstream` is tri-state on load.  Absence, non-UTF-8 content and
the empty UTF-8 string all load as `None`; non-empty UTF-8 text that fails
remote-reference parsing fails the load with the key-named error (and is
the reported load error once the earlier fields are fine); parseable text
loads as `Some` of the parsed reference. -/
theorem c5_upstream_tristate (r : Store) (b : Branch) :
    ((r "meta/upstream" = none ∨
        (∃ bs, r "meta/upstream" = some (Content.binary bs)) ∨
        r "meta/upstream" = some (Content.utf8 "")) →
      fieldUpstream r = Except.ok none ∧
      (loadBranch r = Except.ok b → b.upstream = none)) ∧
    (∀ s, r "meta/upstream" = some (Content.utf8 s) → s ≠ "" →
      RemoteRefname.parse s = none →
      fieldUpstream r = Except.error (ReadError.ioErr upstreamParseMsg) ∧
      errNamesKey (ReadError.ioErr upstreamParseMsg) "meta/upstream" = true ∧
      loadBranch r ≠ Except.ok b ∧
      ((∃ v, fieldId r = Except.ok v) → (∃ v, fieldName r = Except.ok v) →
        (∃ v, fieldNotes r = Except.ok v) → (∃ v, fieldOrder r = Except.ok v) →
        (∃ v, fieldUpstreamHead r = Except.ok v) →
        loadBranch r = Except.error (ReadError.ioErr upstreamParseMsg))) ∧
    (∀ s u, r "meta/upstream" = some (Content.utf8 s) →
      RemoteRefname.parse s = some u →
      loadBranch r = Except.ok b → b.upstream = some u) := by
  refine ⟨?_, ?_, ?_⟩
  · intro hun
    have hfu : fieldUpstream r = Except.ok none := by
      rcases hun with habs | ⟨bs, hb⟩ | hemp
      · exact fieldUpstream_none habs
      · exact fieldUpstream_binary hb
      · exact fieldUpstream_utf8_empty hemp
    refine ⟨hfu, fun hok => ?_⟩
    have h7 := (load_ok_spec r b hok).2.2.2.2.2.2.1
    rw [hfu] at h7
    injection h7 with he
    exact he.symm
  · intro s hc hs hp
    have hfu := fieldUpstream_utf8_err hc hs hp
    refine ⟨hfu, by decide, ?_, ?_⟩
    · intro hok
      exact ok_ne_err (load_ok_spec r b hok).2.2.2.2.2.2.1 hfu
    · rintro ⟨v1, h1⟩ ⟨v2, h2⟩ ⟨v3, h3⟩ ⟨v4, h4⟩ ⟨v5, h5⟩
      rw [load_err_spec]
      simp only [firstFailure, h1, h2, h3, h4, h5, hfu, errChain_ok, errChain_err]
  · intro s u hc hp hok
    have hs : s ≠ "" := by
      intro hemp
      rw [hemp] at hp
      have hnone : RemoteRefname.parse "" = none := by decide
      rw [hnone] at hp
      exact absurd hp (by simp)
    have hfu := fieldUpstream_utf8_ok hc hs hp
    have h7 := (load_ok_spec r b hok).2.2.2.2.2.2.1
    rw [hfu] at h7
    injection h7 with he
    exact he.symm

def upEmptyStore : Store := setKey goodStore "meta/upstream" (some (Content.utf8 ""))
def upBadStore : Store := setKey goodStore "meta/upstream" (some (Content.utf8 "nonsense"))
def upGoodStore : Store :=
  setKey goodStore "meta/upstream" (some (Content.utf8 "refs/remotes/origin/main"))

def sampleUpBranch : Branch :=
  { sampleBranch with upstream := some ⟨"origin", "main"⟩ }

theorem c5_upstream_tristate_witness :
    (fieldUpstream upEmptyStore = Except.ok none ∧ sampleBranch.upstream = none) ∧
    loadBranch upBadStore = Except.error (ReadError.ioErr upstreamParseMsg) ∧
    sampleUpBranch.upstream = some ⟨"origin", "main"⟩ := by
  refine ⟨?_, ?_, ?_⟩
  · have h := (c5_upstream_tristate upEmptyStore sampleBranch).1
      (Or.inr (Or.inr rfl))
    exact ⟨h.1, h.2 rfl⟩
  · exact ((c5_upstream_tristate upBadStore sampleBranch).2.1 "nonsense" rfl
      (by decide) (by decide)).2.2.2
      ⟨⟨uuidA⟩, rfl⟩ ⟨"branch one", rfl⟩ ⟨"", rfl⟩ ⟨0, rfl⟩ ⟨none, rfl⟩
  · exact (c5_upstream_tristate upGoodStore sampleUpBranch).2.2
      "refs/remotes/origin/main" ⟨"origin", "main"⟩ rfl (by decide) rfl

/-! ## Claim C6 -/

/-- C6: `upstream_head` is tri-state on load.  Absence and non-UTF-8
content load as `None`; UTF-8 text that fails commit-identifier parsing
fails the load with the key-named error (and is the reported load error
once the earlier fields are fine); parseable text loads as `Some` of the
parsed identifier. -/
theorem c6_upstream_head_tristate (r : Store) (b : Branch) :
    ((r "meta/upstream_head" = none ∨
        (∃ bs, r "meta/upstream_head" = some (Content.binary bs))) →
      fieldUpstreamHead r = Except.ok none ∧
      (loadBranch r = Except.ok b → b.upstream_head = none)) ∧
    (∀ s, r "meta/upstream_head" = some (Content.utf8 s) →
      Oid.parse s = none →
      fieldUpstreamHead r = Except.error (ReadError.ioErr upstreamHeadParseMsg) ∧
      errNamesKey (ReadError.ioErr upstreamHeadParseMsg) "meta/upstream_head" = true ∧
      loadBranch r ≠ Except.ok b ∧
      ((∃ v, fieldId r = Except.ok v) → (∃ v, fieldName r = Except.ok v) →
        (∃ v, fieldNotes r = Except.ok v) → (∃ v, fieldOrder r = Except.ok v) →
        loadBranch r = Except.error (ReadError.ioErr upstreamHeadParseMsg))) ∧
    (∀ s o, r "meta/upstream_head" = some (Content.utf8 s) →
      Oid.parse s = some o →
      loadBranch r = Except.ok b → b.upstream_head = some o) := by
  refine ⟨?_, ?_, ?_⟩
  · intro hun
    have hfu : fieldUpstreamHead r = Except.ok none := by
      rcases hun with habs | ⟨bs, hb⟩
      · exact fieldUpstreamHead_none habs
      · exact fieldUpstreamHead_binary hb
    refine ⟨hfu, fun hok => ?_⟩
    have h6 := (load_ok_spec r b hok).2.2.2.2.2.1
    rw [hfu] at h6
    injection h6 with he
    exact he.symm
  · intro s hc hp
    have hfu := fieldUpstreamHead_utf8_err hc hp
    refine ⟨hfu, by decide, ?_, ?_⟩
    · intro hok
      exact ok_ne_err (load_ok_spec r b hok).2.2.2.2.2.1 hfu
    · rintro ⟨v1, h1⟩ ⟨v2, h2⟩ ⟨v3, h3⟩ ⟨v4, h4⟩
      rw [load_err_spec]
      simp only [firstFailure, h1, h2, h3, h4, hfu, errChain_ok, errChain_err]
  · intro s o hc hp hok
    have hfu := fieldUpstreamHead_utf8_ok hc hp
    have h6 := (load_ok_spec r b hok).2.2.2.2.2.1
    rw [hfu] at h6
    injection h6 with he
    exact he.symm

def uhBadStore : Store := setKey goodStore "meta/upstream_head" (some (Content.utf8 "zz"))
def uhGoodStore : Store := setKey goodStore "meta/upstream_head" (some (Content.utf8 oidA))
def uhBinStore : Store := setKey goodStore "meta/upstream_head" (some (Content.binary [1]))

def sampleUhBranch : Branch :=
  { sampleBranch with upstream_head := some ⟨oidA⟩ }

theorem c6_upstream_head_tristate_witness :
    (fieldUpstreamHead uhBinStore = Except.ok none ∧ sampleBranch.upstream_head = none) ∧
    loadBranch uhBadStore = Except.error (ReadError.ioErr upstreamHeadParseMsg) ∧
    sampleUhBranch.upstream_head = some ⟨oidA⟩ := by
  refine ⟨?_, ?_, ?_⟩
  · have h := (c6_upstream_head_tristate uhBinStore sampleBranch).1
      (Or.inr ⟨[1], rfl⟩)
    exact ⟨h.1, h.2 rfl⟩
  · exact ((c6_upstream_head_tristate uhBadStore sampleBranch).2.1 "zz" rfl
      (by decide)).2.2.2
      ⟨⟨uuidA⟩, rfl⟩ ⟨"branch one", rfl⟩ ⟨"", rfl⟩ ⟨0, rfl⟩
  · exact (c6_upstream_head_tristate uhGoodStore sampleUhBranch).2.2
      oidA ⟨oidA⟩ rfl (by decide) rfl

/-! ## Claim C7 -/

/-- C7: `Branch.refname` is a pure, deterministic function of the branch
value: equal branches yield equal refnames (and it in fact only depends on
the identifier). -/
theorem c7_refname_deterministic (b1 b2 : Branch) :
    (b1 = b2 → Branch.refname b1 = Branch.refname b2) ∧
    (b1.id = b2.id → Branch.refname b1 = Branch.refname b2) := by
  constructor
  · intro h; rw [h]
  · intro h; unfold Branch.refname; rw [h]

theorem c7_refname_deterministic_witness :
    Branch.refname sampleBranch = Branch.refname sampleBranch :=
  (c7_refname_deterministic sampleBranch sampleBranch).1 rfl

/-! ## Claim C8 -/

/-- C8: loading is a deterministic function of the store's key/value
contents: two stores with identical contents load identically (the
embedding is a pure function of the store, so loading performs no writes). -/
theorem c8_load_deterministic (r r' : Store) (h : ∀ k, r k = r' k) :
    loadBranch r = loadBranch r' := by
  have he : r = r' := funext h
  rw [he]

theorem c8_load_deterministic_witness :
    loadBranch goodStore = loadBranch goodStore :=
  c8_load_deterministic goodStore goodStore (fun _ => rfl)

/-! ## Claim C9 -/

/-- C9: a `BranchUpdateRequest` can only express changes to name, notes,
ownership, order and upstream; applying one leaves `applied`,
`upstream_head`, `tree`, `head` and `created_timestamp_ms` unchanged,
refreshing only `updated_timestamp_ms`. -/
theorem c9_update_request_frame (b : Branch) (u : BranchUpdateRequest) (now : Nat) :
    (applyUpdate b u now).applied = b.applied ∧
    (applyUpdate b u now).upstream_head = b.upstream_head ∧
    (applyUpdate b u now).tree = b.tree ∧
    (applyUpdate b u now).head = b.head ∧
    (applyUpdate b u now).created_timestamp_ms = b.created_timestamp_ms ∧
    (applyUpdate b u now).updated_timestamp_ms = now :=
  ⟨rfl, rfl, rfl, rfl, rfl, rfl⟩

/-! ## Claim C10 -/

/-- A record identical to `goodStore` except that `meta/tree` holds text
that is not an oid and `meta/ownership` holds malformed ownership text. -/
def treeBadOwnBadStore : Store :=
  setKey (setKey goodStore "meta/tree" (some (Content.utf8 "zz")))
    "meta/ownership" (some (Content.utf8 "nocolon"))

/-- C10 counterexample: with both `meta/tree` (earlier in the claimed
order) and `meta/ownership` (later) malformed, the load reports the
`meta/ownership` failure — oid parsing of `meta/tree` happens only inside
the final struct literal, after ownership parsing. -/
theorem c10_counterexample :
    mandCheck "meta/tree" treeBadOwnBadStore =
      Except.error (ReadError.ioErr ("meta/tree" ++ ": malformed oid")) ∧
    mandCheck "meta/ownership" treeBadOwnBadStore =
      Except.error (ReadError.ioErr ownershipParseMsg) ∧
    loadBranch treeBadOwnBadStore = Except.error (ReadError.ioErr ownershipParseMsg) :=
  ⟨rfl, rfl, rfl⟩

/-- C10 amended: load reports the first failing field computation in the
order id, meta/name, meta/notes, meta/order, meta/upstream_head,
meta/upstream, then the reads and conversions of meta/tree, meta/head,
meta/created_timestamp_ms, meta/updated_timestamp_ms, meta/ownership
(including ownership parsing), and only then the oid parsing of meta/tree
and of meta/head. -/
theorem c10_first_failure_order (r : Store) (e : ReadError) :
    loadBranch r = Except.error e ↔ firstFailure r = some e :=
  load_err_spec r e

end GitButler
